import Mathlib

/-!
Verification of the unusual-options-activity detector.

Shallow embedding of the repository's core numeric logic:

* `src/detector.py` — `OptionsDetector`: option-chain metrics
  (`calculate_put_call_ratio`, `track_options_flow`, `detect_unusual_spreads`,
  `analyze_volatility_surface`) and the lazily cached threshold state.
* `src/dynamicThreshold.py` — `DynamicThresholdCalculator`
  (`calculate_volatility_based_threshold`, `calculate_liquidity_based_threshold`).
* `src/report.py` — `OptionsReport` (`interpret_unusual_activity`,
  `generate_summary`).

Modelling conventions:

* Prices, volumes, ratios and implied volatilities are exact rationals `ℚ`
  in place of IEEE doubles.  Where the Python code can produce non-finite
  floats (division by zero, NaN propagation through pandas/scipy), the
  embedding uses either `Option ℚ` (pandas NaN cells) or the four-point
  float completion `F` below (scipy z-scores, where `inf`/`-inf`/`nan`
  must be distinguished), with the IEEE special-value rules spelled out
  case by case.
* Expirations are modelled as natural numbers (dates in chronological
  order); pandas sorts pivot-table axes ascending, which is preserved.
* `numpy.argsort` over the strike axis is modelled as a stable sort by
  distance; the claims checked here do not depend on tie order.
-/

/-- Option side: the `type` column of the normalized chain
(`'call'` / `'put'`, `src/detector.py` lines 74 and 79). -/
inductive Side where
  | call : Side
  | put : Side
deriving DecidableEq, Repr

/-- One row of the normalized option chain produced by
`analyze_options_chain` (`src/detector.py` lines 64-91): strike,
expiration, side tag and the per-contract market fields used by the
metrics. -/
structure Contract where
  strike : ℚ
  expiration : ℕ
  type : Side
  bid : ℚ
  ask : ℚ
  lastPrice : ℚ
  volume : ℚ
  openInterest : ℚ
  impliedVolatility : ℚ
deriving DecidableEq, Repr

/-- Per-contract dollar volume, `options_data['volume'] *
options_data['lastPrice'] * 100` (`src/detector.py` line 117). -/
def dollar_volume (c : Contract) : ℚ :=
  c.volume * c.lastPrice * 100

/-- The bullish-flow filter of `track_options_flow`
(`src/detector.py` lines 123-126): `(type == 'call' ∧ lastPrice > bid) ∨
(type == 'put' ∧ lastPrice < ask)`. -/
def bullish_cond (c : Contract) : Bool :=
  (decide (c.type = Side.call) && decide (c.bid < c.lastPrice)) ||
  (decide (c.type = Side.put) && decide (c.lastPrice < c.ask))

/-- The bearish-flow filter of `track_options_flow`
(`src/detector.py` lines 127-130): `(type == 'put' ∧ lastPrice > bid) ∨
(type == 'call' ∧ lastPrice < ask)`. -/
def bearish_cond (c : Contract) : Bool :=
  (decide (c.type = Side.put) && decide (c.bid < c.lastPrice)) ||
  (decide (c.type = Side.call) && decide (c.lastPrice < c.ask))

/-- Return value of `track_options_flow` (`src/detector.py` lines 132-136). -/
structure FlowMetrics where
  bullish_flow : ℚ
  bearish_flow : ℚ
  net_flow : ℚ
deriving DecidableEq, Repr

/-- `track_options_flow` (`src/detector.py` lines 110-136), the pure part:
sum of dollar volume over the bullish-filtered rows, over the
bearish-filtered rows, and their difference.  (The threshold state read on
line 120 is unused by the computation; the stateful wrapper is
`track_options_flow_s` below.) -/
def track_options_flow (options_data : List Contract) : FlowMetrics :=
  let bullish := options_data.filter bullish_cond
  let bearish := options_data.filter bearish_cond
  { bullish_flow := (bullish.map dollar_volume).sum
    bearish_flow := (bearish.map dollar_volume).sum
    net_flow := (bullish.map dollar_volume).sum - (bearish.map dollar_volume).sum }

/-- Sum of the `volume` column over rows with `type == 'call'`
(`src/detector.py` line 95). -/
def call_volume_sum (options_data : List Contract) : ℚ :=
  ((options_data.filter (fun c => decide (c.type = Side.call))).map (fun c => c.volume)).sum

/-- Sum of the `volume` column over rows with `type == 'put'`
(`src/detector.py` line 96). -/
def put_volume_sum (options_data : List Contract) : ℚ :=
  ((options_data.filter (fun c => decide (c.type = Side.put))).map (fun c => c.volume)).sum

/-- Sum of the `openInterest` column over call rows (`src/detector.py` line 100). -/
def call_oi_sum (options_data : List Contract) : ℚ :=
  ((options_data.filter (fun c => decide (c.type = Side.call))).map (fun c => c.openInterest)).sum

/-- Sum of the `openInterest` column over put rows (`src/detector.py` line 101). -/
def put_oi_sum (options_data : List Contract) : ℚ :=
  ((options_data.filter (fun c => decide (c.type = Side.put))).map (fun c => c.openInterest)).sum

/-- Return value of `calculate_put_call_ratio` (`src/detector.py` lines 105-108). -/
structure PutCallMetrics where
  volume_put_call_ratio : ℚ
  oi_put_call_ratio : ℚ
deriving DecidableEq, Repr

/-- `calculate_put_call_ratio` (`src/detector.py` lines 93-108):
`put_volume / call_volume if call_volume > 0 else 0`, and the same
pattern for open interest. -/
def calculate_put_call_ratio (options_data : List Contract) : PutCallMetrics :=
  { volume_put_call_ratio :=
      if 0 < call_volume_sum options_data then
        put_volume_sum options_data / call_volume_sum options_data
      else 0
    oi_put_call_ratio :=
      if 0 < call_oi_sum options_data then
        put_oi_sum options_data / call_oi_sum options_data
      else 0 }

/-- The fixed message returned by `generate_summary` when there are no
alerts and no findings (`src/report.py` line 126). -/
def no_activity_message : String :=
  "No significant unusual options activity detected at this time."

/-- `generate_summary` (`src/report.py` lines 121-138): the fixed message
when both lists are empty, otherwise a severity label from the alert
count (`> 2` HIGH, `> 0` MEDIUM, else LOW), the alert count, and the
first three findings joined by a semicolon. -/
def generate_summary (interpretations alerts : List String) : String :=
  if alerts = [] ∧ interpretations = [] then no_activity_message
  else
    let alert_count := alerts.length
    let severity := if 2 < alert_count then "HIGH"
      else if 0 < alert_count then "MEDIUM"
      else "LOW"
    "Unusual Activity Level: " ++ severity ++ "\n" ++
      "Number of alerts: " ++ toString alert_count ++ "\n" ++
      "Key findings: " ++ String.intercalate "; " (interpretations.take 3)

/-- A concrete call contract whose last trade printed strictly inside the
bid-ask spread (`bid = 1 < lastPrice = 3/2 < ask = 2`). -/
def insideSpreadCall : Contract :=
  { strike := 100, expiration := 1, type := Side.call, bid := 1, ask := 2,
    lastPrice := 3/2, volume := 1, openInterest := 10, impliedVolatility := 1/5 }

/-- The slice of a `Report` consumed by `interpret_unusual_activity`
(`src/report.py` lines 48-119): latest daily return and latest
historical volatility (pandas `iloc[-1]`, NaN when the history is too
short, hence `Option`), net options flow, volume put/call ratio, and the
unusual-spread count. -/
structure ActivityReport where
  daily_return : Option ℚ
  historical_volatility : Option ℚ
  net_flow : ℚ
  volume_put_call_ratio : ℚ
  unusual_spreads_count : ℕ
deriving DecidableEq, Repr

/-- A finding appended to `interpretations` by `interpret_unusual_activity`,
tagged with the branch that produced it and its numeric payload.  The
English sentence rendered around the payload is not modelled; only the
identity and order of the findings matter here. -/
inductive Finding where
  | priceMove (returnPct : ℚ) : Finding
  | volatility (histVolPct : ℚ) : Finding
  | flow (magnitudeMillions : ℚ) (bullish : Bool) : Finding
  | highPutCall (r : ℚ) : Finding
  | lowPutCall (r : ℚ) : Finding
  | unusualSpreads (count : ℕ) : Finding
deriving DecidableEq, Repr

/-- An alert appended to `alerts` by `interpret_unusual_activity`, tagged
with the branch that produced it. -/
inductive AlertMsg where
  | largePriceMove : AlertMsg
  | largeFlow (bullish : Bool) : AlertMsg
  | highPutVolume : AlertMsg
  | highCallVolume : AlertMsg
  | multipleSpreads : AlertMsg
deriving DecidableEq, Repr

/-- Price-movement branch of `interpret_unusual_activity`
(`src/report.py` lines 56-65): finding when `|daily_return * 100| > 2`,
alert additionally when `> 5`.  A NaN daily return (`none`) fails both
float comparisons. -/
def interp_price_segment (r : ActivityReport) : List Finding × List AlertMsg :=
  match r.daily_return with
  | none => ([], [])
  | some dr0 =>
      let dr := dr0 * 100
      if 2 < |dr| then
        ([Finding.priceMove dr], if 5 < |dr| then [AlertMsg.largePriceMove] else [])
      else ([], [])

/-- Volatility branch (`src/report.py` lines 67-73): finding when
`historical_volatility * 100 > 50`; this branch emits no alert. -/
def interp_vol_segment (r : ActivityReport) : List Finding × List AlertMsg :=
  match r.historical_volatility with
  | none => ([], [])
  | some v0 =>
      let hv := v0 * 100
      if 50 < hv then ([Finding.volatility hv], []) else ([], [])

/-- Options-flow branch (`src/report.py` lines 75-87): finding when
`|net_flow| / 1e6 > 1`, alert additionally when `> 5`; the direction
label follows the sign of `net_flow`. -/
def interp_flow_segment (r : ActivityReport) : List Finding × List AlertMsg :=
  let magnitude := |r.net_flow| / 1000000
  if 1 < magnitude then
    ([Finding.flow magnitude (decide (0 < r.net_flow))],
      if 5 < magnitude then [AlertMsg.largeFlow (decide (0 < r.net_flow))] else [])
  else ([], [])

/-- Put/call-ratio branch (`src/report.py` lines 89-104): bearish finding
when the volume ratio `> 1.5` (alert additionally `> 2.0`), bullish
finding when `< 0.5` (alert additionally `< 0.3`). -/
def interp_pc_segment (r : ActivityReport) : List Finding × List AlertMsg :=
  let vp := r.volume_put_call_ratio
  if 3/2 < vp then
    ([Finding.highPutCall vp], if 2 < vp then [AlertMsg.highPutVolume] else [])
  else if vp < 1/2 then
    ([Finding.lowPutCall vp], if vp < 3/10 then [AlertMsg.highCallVolume] else [])
  else ([], [])

/-- Unusual-spread branch (`src/report.py` lines 106-113): finding when
the count is positive, alert additionally when `> 5`. -/
def interp_spread_segment (r : ActivityReport) : List Finding × List AlertMsg :=
  if 0 < r.unusual_spreads_count then
    ([Finding.unusualSpreads r.unusual_spreads_count],
      if 5 < r.unusual_spreads_count then [AlertMsg.multipleSpreads] else [])
  else ([], [])

/-- `interpret_unusual_activity` (`src/report.py` lines 48-119), the two
accumulated lists: findings and alerts are appended by the five branches
in source order (price, volatility, flow, put/call, spreads).  The
`summary` field of the Python return value is `generate_summary` applied
to the rendered lists and is modelled by that function separately. -/
def interpret_unusual_activity (r : ActivityReport) : List Finding × List AlertMsg :=
  let s1 := interp_price_segment r
  let s2 := interp_vol_segment r
  let s3 := interp_flow_segment r
  let s4 := interp_pc_segment r
  let s5 := interp_spread_segment r
  (s1.1 ++ s2.1 ++ s3.1 ++ s4.1 ++ s5.1, s1.2 ++ s2.2 ++ s3.2 ++ s4.2 ++ s5.2)

/-- The two-contract chain of the spec's put/call scenario: a call with
volume 500 and open interest 1000, a put with volume 1000 and open
interest 2000. -/
def pcScenarioChain : List Contract :=
  [{ strike := 100, expiration := 1, type := Side.call, bid := 9/5, ask := 2,
     lastPrice := 19/10, volume := 500, openInterest := 1000, impliedVolatility := 1/5 },
   { strike := 100, expiration := 1, type := Side.put, bid := 2, ask := 11/5,
     lastPrice := 21/10, volume := 1000, openInterest := 2000, impliedVolatility := 1/4 }]

/-- Four-point completion of the rationals modelling IEEE-754 special
values: finite, `+inf`, `-inf`, `NaN`.  The scipy/pandas pipeline in
`detect_unusual_spreads` can hit all four (division by a zero ask,
NaN propagation through mean/std). -/
inductive F where
  | fin (q : ℚ) : F
  | pinf : F
  | ninf : F
  | nan : F
deriving DecidableEq, Repr

/-- IEEE addition on `F`: `inf + (-inf) = NaN`, NaN absorbs. -/
def Fadd : F → F → F
  | F.fin a, F.fin b => F.fin (a + b)
  | F.fin _, F.pinf => F.pinf
  | F.fin _, F.ninf => F.ninf
  | F.pinf, F.fin _ => F.pinf
  | F.pinf, F.pinf => F.pinf
  | F.pinf, F.ninf => F.nan
  | F.ninf, F.fin _ => F.ninf
  | F.ninf, F.pinf => F.nan
  | F.ninf, F.ninf => F.ninf
  | F.nan, _ => F.nan
  | _, F.nan => F.nan

/-- IEEE subtraction on `F`: `inf - inf = NaN`, NaN absorbs. -/
def Fsub : F → F → F
  | F.fin a, F.fin b => F.fin (a - b)
  | F.fin _, F.pinf => F.ninf
  | F.fin _, F.ninf => F.pinf
  | F.pinf, F.fin _ => F.pinf
  | F.pinf, F.pinf => F.nan
  | F.pinf, F.ninf => F.pinf
  | F.ninf, F.fin _ => F.ninf
  | F.ninf, F.pinf => F.ninf
  | F.ninf, F.ninf => F.nan
  | F.nan, _ => F.nan
  | _, F.nan => F.nan

/-- IEEE multiplication on `F`: `0 * inf = NaN`, signs multiply, NaN
absorbs. -/
def Fmul : F → F → F
  | F.fin a, F.fin b => F.fin (a * b)
  | F.fin a, F.pinf => if 0 < a then F.pinf else if a < 0 then F.ninf else F.nan
  | F.fin a, F.ninf => if 0 < a then F.ninf else if a < 0 then F.pinf else F.nan
  | F.pinf, F.fin b => if 0 < b then F.pinf else if b < 0 then F.ninf else F.nan
  | F.ninf, F.fin b => if 0 < b then F.ninf else if b < 0 then F.pinf else F.nan
  | F.pinf, F.pinf => F.pinf
  | F.pinf, F.ninf => F.ninf
  | F.ninf, F.pinf => F.ninf
  | F.ninf, F.ninf => F.pinf
  | F.nan, _ => F.nan
  | _, F.nan => F.nan

/-- IEEE division on `F` as numpy produces it: `a / 0` is `±inf` by the
sign of `a` and `0 / 0 = NaN`; `a / ±inf = 0` (signed zeros collapsed to
`0`, which compares identically); `inf / inf = NaN`; NaN absorbs. -/
def Fdiv : F → F → F
  | F.fin a, F.fin b =>
      if b ≠ 0 then F.fin (a / b)
      else if 0 < a then F.pinf
      else if a < 0 then F.ninf
      else F.nan
  | F.fin _, F.pinf => F.fin 0
  | F.fin _, F.ninf => F.fin 0
  | F.pinf, F.fin b => if 0 ≤ b then F.pinf else F.ninf
  | F.ninf, F.fin b => if 0 ≤ b then F.ninf else F.pinf
  | F.pinf, F.pinf => F.nan
  | F.pinf, F.ninf => F.nan
  | F.ninf, F.pinf => F.nan
  | F.ninf, F.ninf => F.nan
  | F.nan, _ => F.nan
  | _, F.nan => F.nan

/-- Sum of a list of floats (numpy sum; the fold order is irrelevant to
the special-value propagation facts used below). -/
def Fsum (xs : List F) : F :=
  xs.foldr Fadd (F.fin 0)

/-- Arithmetic mean of a list of floats; the mean of an empty list is
`0 / 0 = NaN`, as numpy warns and returns. -/
def Fmean (xs : List F) : F :=
  Fdiv (Fsum xs) (F.fin xs.length)

/-- Population variance (`ddof = 0`, as `scipy.stats.zscore` uses): mean
of squared deviations from the mean. -/
def Fvar (xs : List F) : F :=
  let m := Fmean xs
  Fmean (xs.map (fun x => Fmul (Fsub x m) (Fsub x m)))

/-- Decides the float comparison `d / sqrt v > t` for rational `t` — the
`spread_z_score > threshold` test of `detect_unusual_spreads`, with
`d` the deviation from the mean and `v` the population variance, so that
`d / sqrt v` is the z-score.  Squaring eliminates the irrational square
root: for `v > 0` and `t ≥ 0`, `d / sqrt v > t ↔ d > 0 ∧ d^2 > t^2 * v`;
for `t < 0`, `d / sqrt v > t ↔ d ≥ 0 ∨ d^2 < t^2 * v`.  The special
values follow IEEE: `sqrt` of a negative or of `-inf` or NaN is NaN and
any comparison with NaN is false; `d / sqrt 0` is `±inf` by the sign of
`d` (NaN for `d = 0`); a finite `d` over `sqrt inf` gives `±0 > t ↔
t < 0`; `inf / inf` is NaN. -/
def FzGT (d v : F) (t : ℚ) : Bool :=
  match d, v with
  | F.fin a, F.fin b =>
      if b < 0 then false
      else if b = 0 then decide (0 < a)
      else if 0 ≤ t then decide (0 < a ∧ t ^ 2 * b < a ^ 2)
      else decide (0 ≤ a ∨ a ^ 2 < t ^ 2 * b)
  | F.fin _, F.pinf => decide (t < 0)
  | F.fin _, F.ninf => false
  | F.pinf, F.fin b => decide (¬ b < 0)
  | F.pinf, F.pinf => false
  | F.pinf, F.ninf => false
  | F.ninf, F.fin _ => false
  | F.ninf, F.pinf => false
  | F.ninf, F.ninf => false
  | F.nan, _ => false
  | _, F.nan => false

/-- Per-contract spread percentage `bid_ask_spread / ask * 100`
(`src/detector.py` lines 83-86), as the float the pipeline carries:
`±inf` or NaN when `ask = 0`. -/
def spread_percentage (c : Contract) : F :=
  Fmul (Fdiv (F.fin (c.ask - c.bid)) (F.fin c.ask)) (F.fin 100)

/-- `detect_unusual_spreads` (`src/detector.py` lines 138-154), the pure
part, parametrized by the two threshold values read from the cached
`ThresholdSet`: `stats.zscore` over the whole `spread_percentage` column
(population statistics, NaN propagating, `nan_policy` default), then the
filter `spread_z_score > spread_threshold ∧ volume > volume_threshold`. -/
def detect_unusual_spreads (options_data : List Contract)
    (spread_threshold volume_threshold : ℚ) : List Contract :=
  let xs := options_data.map spread_percentage
  let m := Fmean xs
  let v := Fvar xs
  options_data.filter (fun c =>
    FzGT (Fsub (spread_percentage c) m) v spread_threshold &&
      decide (volume_threshold < c.volume))

/-- The spread percentage as the claim defines it for contracts with
`ask > 0`, where it is an ordinary rational. -/
def spreadPctQ (c : Contract) : ℚ :=
  (c.ask - c.bid) / c.ask * 100

/-- Population mean of a rational list. -/
def popMean (l : List ℚ) : ℚ :=
  l.sum / l.length

/-- Population variance of a rational list (mean of squared deviations). -/
def popVar (l : List ℚ) : ℚ :=
  (l.map (fun x => (x - popMean l) ^ 2)).sum / l.length

/-- Decides `d / sqrt v > t` for rationals with `v` a population
variance; when `v ≤ 0` the standard deviation is zero (or undefined) and
the claim's z-score test cannot fire. -/
def zGTQ (d v t : ℚ) : Bool :=
  if v ≤ 0 then false
  else if 0 ≤ t then decide (0 < d ∧ t ^ 2 * v < d ^ 2)
  else decide (0 ≤ d ∨ d ^ 2 < t ^ 2 * v)

/-- The unusual-spread set as claim C2 describes it: z-scores computed
over only the population of contracts with defined `spreadPct`
(`ask > 0`), using population mean and standard deviation; a contract
with undefined `spreadPct` can never be returned. -/
def spec_unusual_spreads (options_data : List Contract)
    (spread_threshold volume_threshold : ℚ) : List Contract :=
  let pop := (options_data.filter (fun c => decide (0 < c.ask))).map spreadPctQ
  let m := popMean pop
  let v := popVar pop
  options_data.filter (fun c =>
    decide (0 < c.ask) && zGTQ (spreadPctQ c - m) v spread_threshold &&
      decide (volume_threshold < c.volume))

/-- A contract whose spread percentage is zero (`bid = ask = 1`). -/
def zeroSpreadContract : Contract :=
  { strike := 100, expiration := 1, type := Side.call, bid := 1, ask := 1,
    lastPrice := 1, volume := 5, openInterest := 10, impliedVolatility := 1/5 }

/-- A contract whose spread percentage is 100 (`bid = 0, ask = 1`), a
strong outlier against ten zero-spread contracts. -/
def outlierSpreadContract : Contract :=
  { strike := 105, expiration := 1, type := Side.call, bid := 0, ask := 1,
    lastPrice := 1/2, volume := 5, openInterest := 10, impliedVolatility := 1/5 }

/-- A contract with `ask = 0`: its spread percentage is the float
`-bid / 0 * 100 = -inf`. -/
def zeroAskContract : Contract :=
  { strike := 110, expiration := 1, type := Side.put, bid := 1, ask := 0,
    lastPrice := 1/2, volume := 5, openInterest := 10, impliedVolatility := 1/5 }

/-- Ten zero-spread contracts, one extreme outlier, and one `ask = 0`
contract: the outlier's z-score over the defined population is
`sqrt 10 > 3`, but the `ask = 0` contract poisons the whole z-score
column with NaN. -/
def spoiledChain : List Contract :=
  List.replicate 10 zeroSpreadContract ++ [outlierSpreadContract, zeroAskContract]

/-- Daily simple returns `Close.pct_change()` (`src/dynamicThreshold.py`
line 20): the first entry is NaN (`none`); an entry whose previous close
is zero is a division-by-zero float and is conflated with `none` here
(no claim checked below distinguishes it — with fewer than 21 bars the
regime computation below is NaN-driven regardless, and with more it is
stated through these same definitions). -/
def pct_change_tail (prev : ℚ) : List ℚ → List (Option ℚ)
  | [] => []
  | c :: rest => (if prev = 0 then none else some (c / prev - 1)) :: pct_change_tail c rest

/-- `pct_change` over the close column: leading NaN, then successive
ratios. -/
def pct_change : List ℚ → List (Option ℚ)
  | [] => []
  | c :: rest => none :: pct_change_tail c rest

/-- Sample variance (pandas `rolling(...).std()` uses `ddof = 1`) of a
20-bar window, annualized: `(std * sqrt 252)^2 = var * 252`.  Rolling
volatility values are carried as their squares throughout, since the
square root of a rational is irrational; ranking and the regime
comparisons are unaffected (squaring is monotone on the nonnegative
volatilities) and the final threshold keeps the value symbolic. -/
def sampleVarAnn (w : List ℚ) : ℚ :=
  let m := w.sum / w.length
  (w.map (fun x => (x - m) ^ 2)).sum / ((w.length : ℚ) - 1) * 252

/-- `returns.rolling(window=20).std() * sqrt(252)` (`src/dynamicThreshold.py`
line 21), squared: entry `i` is defined when the trailing 20-entry
window exists and contains no NaN (pandas `min_periods = window`),
otherwise NaN. -/
def rollingVolSq (rets : List (Option ℚ)) : List (Option ℚ) :=
  (List.range rets.length).map (fun i =>
    let w := (rets.take (i + 1)).drop (i + 1 - 20)
    if w.length = 20 && w.all Option.isSome then
      some (sampleVarAnn (w.filterMap id))
    else none)

/-- `rank(pct=True)` (`src/dynamicThreshold.py` line 24): average rank of
ties divided by the count of non-NaN entries; NaN entries keep NaN
(`na_option` default). -/
def ranksPct (xs : List (Option ℚ)) : List (Option ℚ) :=
  let defined := xs.filterMap id
  xs.map (fun o => o.map (fun v =>
    (((defined.filter (fun w => decide (w < v))).length : ℚ) +
        (((defined.filter (fun w => decide (w = v))).length : ℚ) + 1) / 2) /
      (defined.length : ℚ)))

/-- Float comparison `b < a` on a possibly-NaN left operand: false for
NaN. -/
def oGT (o : Option ℚ) (b : ℚ) : Bool :=
  match o with
  | some a => decide (b < a)
  | none => false

/-- Float comparison `a < b` on a possibly-NaN left operand: false for
NaN. -/
def oLT (o : Option ℚ) (b : ℚ) : Bool :=
  match o with
  | some a => decide (a < b)
  | none => false

/-- Return value of `calculate_volatility_based_threshold`
(`src/dynamicThreshold.py` lines 27-44).  The price-move threshold is
`latestVol * k` and is kept symbolic as the pair `(k, latestVolSq)`
(the float value is `k * sqrt latestVolSq`), `none` when the latest
rolling volatility is NaN. -/
structure VolThresholds where
  price_move_threshold : Option (ℚ × ℚ)
  volume_threshold : ℚ
  iv_threshold : ℚ
deriving DecidableEq, Repr

/-- `calculate_volatility_based_threshold` (`src/dynamicThreshold.py`
lines 15-44): percentile rank of the latest rolling volatility, then the
regime table; `none` models the `iloc[-1]` IndexError on an empty close
series.  A NaN percentile (`oGT`/`oLT` false) falls through to the
medium regime. -/
def calculate_volatility_based_threshold (closes : List ℚ) : Option VolThresholds :=
  let rolling_vol := rollingVolSq (pct_change closes)
  let ranks := ranksPct rolling_vol
  match ranks.getLast?, rolling_vol.getLast? with
  | some vol_percentile, some latest =>
      some (if oGT vol_percentile 0.8 then
              { price_move_threshold := latest.map (fun s => (0.5, s))
                volume_threshold := 2.5
                iv_threshold := 1.8 }
            else if oLT vol_percentile 0.2 then
              { price_move_threshold := latest.map (fun s => (1.5, s))
                volume_threshold := 4.0
                iv_threshold := 2.5 }
            else
              { price_move_threshold := latest.map (fun s => (1.0, s))
                volume_threshold := 3.0
                iv_threshold := 2.0 })
  | _, _ => none

/-- The percentile rank of the latest annualized rolling volatility
(NaN as `none`). -/
def volPercentile (closes : List ℚ) : Option ℚ :=
  ((ranksPct (rollingVolSq (pct_change closes))).getLast?).join

/-- The latest squared annualized rolling volatility (NaN as `none`). -/
def latestVolSq (closes : List ℚ) : Option ℚ :=
  ((rollingVolSq (pct_change closes)).getLast?).join

/-- The threshold table exactly as claim C5 states it, as a function of
the percentile rank `r` and the latest volatility: HIGH
`{0.5*v, 2.5, 1.8}` exactly when `r > 0.8`, LOW `{1.5*v, 4.0, 2.5}`
exactly when `r < 0.2`, MEDIUM `{1.0*v, 3.0, 2.0}` otherwise — both
boundaries strict. -/
def volThresholdTable (r : Option ℚ) (v : Option ℚ) : VolThresholds :=
  if oGT r 0.8 then
    { price_move_threshold := v.map (fun s => (0.5, s))
      volume_threshold := 2.5
      iv_threshold := 1.8 }
  else if oLT r 0.2 then
    { price_move_threshold := v.map (fun s => (1.5, s))
      volume_threshold := 4.0
      iv_threshold := 2.5 }
  else
    { price_move_threshold := v.map (fun s => (1.0, s))
      volume_threshold := 3.0
      iv_threshold := 2.0 }

/-- Float strict comparison: false whenever either side is NaN. -/
def FltB : F → F → Bool
  | F.fin a, F.fin b => decide (a < b)
  | F.fin _, F.pinf => true
  | F.ninf, F.fin _ => true
  | F.ninf, F.pinf => true
  | _, _ => false

/-- Total order used to sort NaN-free float lists (NaN sorts last; the
median filters NaN out first, as pandas `skipna` does). -/
def FleB : F → F → Bool
  | F.ninf, _ => true
  | F.fin a, F.fin b => decide (a ≤ b)
  | F.fin _, F.pinf => true
  | F.fin _, F.ninf => false
  | F.fin _, F.nan => true
  | F.pinf, F.pinf => true
  | F.pinf, F.nan => true
  | F.pinf, F.fin _ => false
  | F.pinf, F.ninf => false
  | F.nan, _ => true

/-- Stable insertion into a sorted list: ties keep the earlier element
first. -/
def insertSorted {α : Type} (le : α → α → Bool) (a : α) : List α → List α
  | [] => [a]
  | b :: l => if le a b then a :: b :: l else b :: insertSorted le a l

/-- Stable insertion sort (models pandas/numpy sorts; the claims checked
here do not depend on tie order). -/
def insertionSort {α : Type} (le : α → α → Bool) : List α → List α
  | [] => []
  | a :: l => insertSorted le a (insertionSort le l)

/-- pandas median: drop NaN, sort, take the middle (or the mean of the
two middles); the median of an empty or all-NaN column is NaN. -/
def Fmedian (xs : List F) : F :=
  let ys := insertionSort FleB (xs.filter (fun x => decide (x ≠ F.nan)))
  let n := ys.length
  if n = 0 then F.nan
  else if n % 2 = 1 then ys.getD (n / 2) F.nan
  else Fdiv (Fadd (ys.getD (n / 2 - 1) F.nan) (ys.getD (n / 2) F.nan)) (F.fin 2)

/-- Per-contract relative spread `(ask - bid) / ((ask + bid) / 2)`
(`src/dynamicThreshold.py` lines 51-54), a float that is `±inf` or NaN
when the midpoint is zero. -/
def relative_spread (c : Contract) : F :=
  Fdiv (F.fin (c.ask - c.bid)) (F.fin ((c.ask + c.bid) / 2))

/-- Return value of `calculate_liquidity_based_threshold`
(`src/dynamicThreshold.py` lines 60-77). -/
structure LiqThresholds where
  spread_threshold : ℚ
  volume_multiplier : ℚ
  oi_threshold : ℚ
deriving DecidableEq, Repr

/-- `calculate_liquidity_based_threshold` (`src/dynamicThreshold.py`
lines 46-77): liquidity regime from the median relative spread and
median volume. -/
def calculate_liquidity_based_threshold (options_data : List Contract) : LiqThresholds :=
  let median_spread := Fmedian (options_data.map relative_spread)
  let median_volume := Fmedian (options_data.map (fun c => F.fin c.volume))
  if FltB (F.fin 0.05) median_spread || FltB median_volume (F.fin 100) then
    { spread_threshold := 3.0, volume_multiplier := 2.0, oi_threshold := 1.5 }
  else if FltB median_spread (F.fin 0.02) && FltB (F.fin 1000) median_volume then
    { spread_threshold := 5.0, volume_multiplier := 4.0, oi_threshold := 2.5 }
  else
    { spread_threshold := 4.0, volume_multiplier := 3.0, oi_threshold := 2.0 }

/-- The combined threshold dictionary built by
`initialize_dynamic_thresholds` (`src/detector.py` lines 29-35). -/
structure ThresholdSet where
  price_move : Option (ℚ × ℚ)
  volume : ℚ
  iv : ℚ
  spread : ℚ
  oi : ℚ
deriving DecidableEq, Repr

/-- `initialize_dynamic_thresholds` (`src/detector.py` lines 15-37):
volatility and liquidity thresholds combined; `none` when the
volatility computation raises (empty history). -/
def initialize_dynamic_thresholds (historical_closes : List ℚ)
    (chain : List Contract) : Option ThresholdSet :=
  (calculate_volatility_based_threshold historical_closes).map (fun volT =>
    let liqT := calculate_liquidity_based_threshold chain
    { price_move := volT.price_move_threshold
      volume := volT.volume_threshold * liqT.volume_multiplier
      iv := volT.iv_threshold
      spread := liqT.spread_threshold
      oi := liqT.oi_threshold })

/-- The mutable detector state: `self.thresholds`, initialized to the
empty (falsy) dict, modelled as `none`; once populated it always holds
all five keys, modelled as `some`. -/
structure DetectorState where
  thresholds : Option ThresholdSet
deriving DecidableEq, Repr

/-- The stateful entry to `track_options_flow` (`src/detector.py` lines
110-120): thresholds are computed if and only if the cache is empty;
the fetched history and chain are explicit inputs (the data the compute
path would fetch).  `none` models the initialization itself raising. -/
def track_options_flow_s (st : DetectorState) (historical_closes : List ℚ)
    (chain options_data : List Contract) : Option (DetectorState × FlowMetrics) :=
  match st.thresholds with
  | some _ => some (st, track_options_flow options_data)
  | none =>
      (initialize_dynamic_thresholds historical_closes chain).map
        (fun ts => (⟨some ts⟩, track_options_flow options_data))

/-- The stateful entry to `detect_unusual_spreads` (`src/detector.py`
lines 138-146): same compute-if-absent guard; the detection uses the
cached `spread` and `volume` thresholds. -/
def detect_unusual_spreads_s (st : DetectorState) (historical_closes : List ℚ)
    (chain options_data : List Contract) : Option (DetectorState × List Contract) :=
  match st.thresholds with
  | some ts => some (st, detect_unusual_spreads options_data ts.spread ts.volume)
  | none =>
      (initialize_dynamic_thresholds historical_closes chain).map
        (fun ts => (⟨some ts⟩, detect_unusual_spreads options_data ts.spread ts.volume))

/-- Mean of a rational list as pandas `Series.mean()` with `skipna`
returns it: NaN (`none`) for an empty list. -/
def meanO (l : List ℚ) : Option ℚ :=
  if l = [] then none else some (l.sum / l.length)

/-- The sorted, deduplicated strike axis of the pivot table
(`src/detector.py` lines 158-163). -/
def strikeAxis (options_data : List Contract) : List ℚ :=
  (insertionSort (fun a b => decide (a ≤ b)) (options_data.map (fun c => c.strike))).dedup

/-- The sorted, deduplicated expiration axis of the pivot table. -/
def expAxis (options_data : List Contract) : List ℕ :=
  (insertionSort (fun a b => decide (a ≤ b)) (options_data.map (fun c => c.expiration))).dedup

/-- One pivot-table cell: the mean implied volatility of the contracts
at this strike and expiration (`aggfunc` default), NaN (`none`) when no
contract matches. -/
def pivotCell (options_data : List Contract) (s : ℚ) (e : ℕ) : Option ℚ :=
  meanO ((options_data.filter (fun c =>
    decide (c.strike = s) && decide (c.expiration = e))).map (fun c => c.impliedVolatility))

/-- The pivot's columns after `dropna` (default `True`): expirations
whose column is not entirely NaN.  (With implied volatilities given as
rationals every expiration present in the chain survives.) -/
def pivotColumns (options_data : List Contract) : List ℕ :=
  (expAxis options_data).filter (fun e =>
    (strikeAxis options_data).any (fun s => (pivotCell options_data s e).isSome))

/-- `np.abs(pivot_iv.index - atm_strike).argsort()[:2]`
(`src/detector.py` line 167): the two strikes of the pivot axis closest
to spot, modelled by stably sorting the axis by distance. -/
def closestStrikes (options_data : List Contract) (spot : ℚ) : List ℚ :=
  (insertionSort (fun a b => decide (|a - spot| ≤ |b - spot|))
    (strikeAxis options_data)).take 2

/-- `analyze_volatility_surface` (`src/detector.py` lines 156-174): for
every pivot column, the skipna mean of the cells at the two closest
strikes — an expiration with no defined cell there yields a NaN entry
(`none`), which the dict comprehension still includes. -/
def analyze_volatility_surface (options_data : List Contract) (spot : ℚ) :
    List (ℕ × Option ℚ) :=
  (pivotColumns options_data).map (fun e =>
    (e, meanO (((closestStrikes options_data spot).map
      (fun s => pivotCell options_data s e)).filterMap id)))

/-- The skew mapping as claim C4 describes it: expirations with no
usable cells among the two closest strikes are omitted. -/
def spec_volatility_skew (options_data : List Contract) (spot : ℚ) :
    List (ℕ × Option ℚ) :=
  ((pivotColumns options_data).map (fun e =>
    (e, meanO (((closestStrikes options_data spot).map
      (fun s => pivotCell options_data s e)).filterMap id)))).filter
    (fun p => p.2.isSome)

/-- A chain with two expirations: expiration 1 quotes the strikes near
spot (100, 101), expiration 2 quotes only the far strike 200. -/
def surfaceChain : List Contract :=
  [{ strike := 100, expiration := 1, type := Side.call, bid := 1, ask := 2,
     lastPrice := 3/2, volume := 5, openInterest := 10, impliedVolatility := 1/5 },
   { strike := 101, expiration := 1, type := Side.call, bid := 1, ask := 2,
     lastPrice := 3/2, volume := 5, openInterest := 10, impliedVolatility := 2/5 },
   { strike := 200, expiration := 2, type := Side.put, bid := 1, ask := 2,
     lastPrice := 3/2, volume := 5, openInterest := 10, impliedVolatility := 9/10 }]

/-- Claim C8: for every chain, `net_flow = bullish_flow - bearish_flow`
exactly (`src/detector.py` line 135 computes the net as exactly this
difference of the two sums). -/
theorem track_options_flow_net_eq (options_data : List Contract) :
    (track_options_flow options_data).net_flow =
      (track_options_flow options_data).bullish_flow -
        (track_options_flow options_data).bearish_flow := rfl

/-- Claim C1 (amended): the bullish and bearish flow classifications are
not mutually exclusive; they hold simultaneously exactly when the last
trade printed strictly inside the bid-ask spread
(`bid < lastPrice < ask`), for either side. -/
theorem bullish_bearish_overlap_iff (c : Contract) :
    (bullish_cond c = true ∧ bearish_cond c = true) ↔
      (c.bid < c.lastPrice ∧ c.lastPrice < c.ask) := by
  cases h : c.type
  · simp [bullish_cond, bearish_cond, h]
  · simp [bullish_cond, bearish_cond, h]
    exact and_comm

/-- Claim C1 (counterexample): a call with `bid = 1 < lastPrice = 3/2 <
ask = 2` satisfies both the bullish and the bearish filter, and its
dollar volume (150) is counted in both flow totals. -/
theorem bullish_bearish_both_counted :
    (bullish_cond insideSpreadCall = true ∧ bearish_cond insideSpreadCall = true) ∧
      track_options_flow [insideSpreadCall] = ⟨150, 150, 0⟩ := by
  refine ⟨⟨?_, ?_⟩, ?_⟩
  · simp [bullish_cond, insideSpreadCall]
    norm_num
  · simp [bearish_cond, insideSpreadCall]
    norm_num
  · norm_num [track_options_flow, List.filter_cons, bullish_cond, bearish_cond,
      insideSpreadCall, dollar_volume]

/-- Claim C7: `calculate_put_call_ratio` returns the put/call quotient
when the call-side sum is positive and exactly 0 when it is 0, for both
the volume ratio and the open-interest ratio. -/
theorem calculate_put_call_ratio_guards (options_data : List Contract) :
    (0 < call_volume_sum options_data →
      (calculate_put_call_ratio options_data).volume_put_call_ratio =
        put_volume_sum options_data / call_volume_sum options_data) ∧
    (call_volume_sum options_data = 0 →
      (calculate_put_call_ratio options_data).volume_put_call_ratio = 0) ∧
    (0 < call_oi_sum options_data →
      (calculate_put_call_ratio options_data).oi_put_call_ratio =
        put_oi_sum options_data / call_oi_sum options_data) ∧
    (call_oi_sum options_data = 0 →
      (calculate_put_call_ratio options_data).oi_put_call_ratio = 0) := by
  refine ⟨fun h => ?_, fun h => ?_, fun h => ?_, fun h => ?_⟩ <;>
    simp [calculate_put_call_ratio, h]

/-- Claim C7 (witness): on the spec's two-contract scenario the volume
ratio is `1000 / 500 = 2` and the open-interest ratio is
`2000 / 1000 = 2`. -/
theorem calculate_put_call_ratio_guards_witness :
    (calculate_put_call_ratio pcScenarioChain).volume_put_call_ratio = 2 ∧
      (calculate_put_call_ratio pcScenarioChain).oi_put_call_ratio = 2 := by
  have h1 := (calculate_put_call_ratio_guards pcScenarioChain).1
    (by simp [call_volume_sum, List.filter_cons, pcScenarioChain])
  have h2 := (calculate_put_call_ratio_guards pcScenarioChain).2.2.1
    (by simp [call_oi_sum, List.filter_cons, pcScenarioChain])
  constructor
  · rw [h1]
    simp [put_volume_sum, call_volume_sum, List.filter_cons, pcScenarioChain]
    norm_num
  · rw [h2]
    simp [put_oi_sum, call_oi_sum, List.filter_cons, pcScenarioChain]
    norm_num

/-- Each branch of the interpreter emits at most one alert, and only
after emitting a finding: price-movement segment. -/
theorem interp_price_segment_le (r : ActivityReport) :
    (interp_price_segment r).2.length ≤ (interp_price_segment r).1.length := by
  rcases r with ⟨dr, hv, nf, vp, n⟩
  cases dr
  · simp [interp_price_segment]
  · simp only [interp_price_segment]
    split_ifs <;> simp

/-- Volatility segment: no alerts at all. -/
theorem interp_vol_segment_le (r : ActivityReport) :
    (interp_vol_segment r).2.length ≤ (interp_vol_segment r).1.length := by
  rcases r with ⟨dr, hv, nf, vp, n⟩
  cases hv
  · simp [interp_vol_segment]
  · simp only [interp_vol_segment]
    split_ifs <;> simp

/-- Flow segment: at most one alert, only inside the finding branch. -/
theorem interp_flow_segment_le (r : ActivityReport) :
    (interp_flow_segment r).2.length ≤ (interp_flow_segment r).1.length := by
  simp only [interp_flow_segment]
  split_ifs <;> simp

/-- Put/call segment: at most one alert, only inside a finding branch. -/
theorem interp_pc_segment_le (r : ActivityReport) :
    (interp_pc_segment r).2.length ≤ (interp_pc_segment r).1.length := by
  simp only [interp_pc_segment]
  split_ifs <;> simp

/-- Spread segment: at most one alert, only inside the finding branch. -/
theorem interp_spread_segment_le (r : ActivityReport) :
    (interp_spread_segment r).2.length ≤ (interp_spread_segment r).1.length := by
  simp only [interp_spread_segment]
  split_ifs <;> simp

/-- Claim C10: for every report, `interpret_unusual_activity` emits at
most as many alerts as findings, so a non-empty alert list implies a
non-empty findings list. -/
theorem interpret_alerts_le_findings (r : ActivityReport) :
    ((interpret_unusual_activity r).2.length ≤ (interpret_unusual_activity r).1.length) ∧
      ((interpret_unusual_activity r).2 ≠ [] → (interpret_unusual_activity r).1 ≠ []) := by
  have h : (interpret_unusual_activity r).2.length ≤ (interpret_unusual_activity r).1.length := by
    simp only [interpret_unusual_activity, List.length_append]
    have h1 := interp_price_segment_le r
    have h2 := interp_vol_segment_le r
    have h3 := interp_flow_segment_le r
    have h4 := interp_pc_segment_le r
    have h5 := interp_spread_segment_le r
    omega
  refine ⟨h, fun hne => ?_⟩
  intro hfe
  apply hne
  have := h
  rw [hfe] at this
  simpa [List.length_eq_zero] using Nat.le_zero.mp this

/-- Appending distributes over `String.data`. -/
theorem str_data_append (s t : String) : (s ++ t).data = s.data ++ t.data := rfl

/-- The severity header exposes its first character. -/
theorem severity_header_data :
    "Unusual Activity Level: ".data = 'U' :: "nusual Activity Level: ".data := by decide

/-- A formatted summary never coincides with the fixed no-activity
message: their first characters differ. -/
theorem severity_header_ne_no_activity (s : String) :
    "Unusual Activity Level: " ++ s ≠ no_activity_message := by
  intro h
  have h2 := congrArg (fun t => t.data.head?) h
  simp only [str_data_append, severity_header_data, List.cons_append, List.head?_cons] at h2
  have h3 : no_activity_message.data.head? = some 'N' := by decide
  rw [h3] at h2
  exact absurd (Option.some.inj h2) (by decide)

/-- Claim C6: `generate_summary` returns the fixed no-activity message
exactly when both lists are empty; otherwise the summary carries
severity HIGH when there are more than two alerts, MEDIUM when there are
one or two, LOW when there are none but findings exist, the alert count,
and at most the first three findings in their original order. -/
theorem generate_summary_spec (interpretations alerts : List String) :
    (generate_summary interpretations alerts = no_activity_message ↔
      (interpretations = [] ∧ alerts = [])) ∧
    (¬(interpretations = [] ∧ alerts = []) →
      generate_summary interpretations alerts =
        "Unusual Activity Level: " ++
          (if 2 < alerts.length then "HIGH"
            else if alerts.length = 1 ∨ alerts.length = 2 then "MEDIUM"
            else "LOW") ++ "\n" ++
          "Number of alerts: " ++ toString alerts.length ++ "\n" ++
          "Key findings: " ++ String.intercalate "; " (interpretations.take 3)) := by
  have hsev : (if 2 < alerts.length then "HIGH"
        else if 0 < alerts.length then "MEDIUM"
        else "LOW") =
      (if 2 < alerts.length then "HIGH"
        else if alerts.length = 1 ∨ alerts.length = 2 then "MEDIUM"
        else "LOW") := by
    split_ifs <;> first | rfl | omega
  constructor
  · constructor
    · intro h
      by_contra hne
      rw [generate_summary, if_neg (fun hc => hne ⟨hc.2, hc.1⟩)] at h
      simp only [String.append_assoc] at h
      exact severity_header_ne_no_activity _ h
    · rintro ⟨hf, ha⟩
      simp [generate_summary, hf, ha]
  · intro hne
    rw [generate_summary, if_neg (fun hc => hne ⟨hc.2, hc.1⟩)]
    simp only [← hsev]

/-- Claim C6 (witness): one finding and three alerts yield the HIGH
summary listing the finding; empty inputs yield the fixed message. -/
theorem generate_summary_spec_witness :
    generate_summary ["f1"] ["a1", "a2", "a3"] =
        "Unusual Activity Level: HIGH\nNumber of alerts: 3\nKey findings: f1" ∧
      generate_summary [] [] = no_activity_message := by
  constructor
  · have h := (generate_summary_spec ["f1"] ["a1", "a2", "a3"]).2 (by simp)
    rw [h]
    decide
  · exact (generate_summary_spec [] []).1.mpr ⟨rfl, rfl⟩

/-- Claim C2 (counterexample): on a chain with ten zero-spread
contracts, one extreme spread outlier and one `ask = 0` contract,
the code returns nothing — the `ask = 0` contract's `-inf` spread
percentage drives the mean to `-inf` and the variance to NaN, so every
z-score comparison fails — while the z-score over the population of
defined spread percentages (as the claim describes) flags the outlier
(its z-score is `sqrt 10 > 3`). -/
theorem detect_unusual_spreads_counterexample :
    detect_unusual_spreads spoiledChain 3 1 = [] ∧
      spec_unusual_spreads spoiledChain 3 1 = [outlierSpreadContract] := by
  constructor
  · simp only [spoiledChain, detect_unusual_spreads, zeroSpreadContract,
      outlierSpreadContract, zeroAskContract, List.replicate]
    norm_num [List.filter_cons, Fsum, Fmean, Fvar, Fadd, Fsub, Fmul, Fdiv, FzGT,
      spread_percentage]
  · simp only [spoiledChain, spec_unusual_spreads, zeroSpreadContract,
      outlierSpreadContract, zeroAskContract, List.replicate]
    norm_num [List.filter_cons, popMean, popVar, zGTQ, spreadPctQ]

/-- Summing the embedding of a rational list is the embedding of its sum. -/
theorem Fsum_map_fin (l : List ℚ) : Fsum (l.map F.fin) = F.fin l.sum := by
  induction l with
  | nil => rfl
  | cons x xs ih =>
      show Fadd (F.fin x) (Fsum (xs.map F.fin)) = F.fin (x + xs.sum)
      rw [ih]
      rfl

/-- NaN is absorbing for float sums. -/
theorem Fsum_of_nan_mem (xs : List F) (h : F.nan ∈ xs) : Fsum xs = F.nan := by
  induction xs with
  | nil => cases h
  | cons a l ih =>
      rcases List.mem_cons.mp h with rfl | hm
      · show Fadd F.nan (Fsum l) = F.nan
        cases Fsum l <;> rfl
      · show Fadd a (Fsum l) = F.nan
        rw [ih hm]
        cases a <;> rfl

/-- A float sum over a list containing `+inf` is `+inf` or NaN. -/
theorem Fsum_of_pinf_mem (xs : List F) (h : F.pinf ∈ xs) :
    Fsum xs = F.pinf ∨ Fsum xs = F.nan := by
  induction xs with
  | nil => cases h
  | cons a l ih =>
      rcases List.mem_cons.mp h with rfl | hm
      · show Fadd F.pinf (Fsum l) = F.pinf ∨ Fadd F.pinf (Fsum l) = F.nan
        cases Fsum l <;> simp [Fadd]
      · show Fadd a (Fsum l) = F.pinf ∨ Fadd a (Fsum l) = F.nan
        rcases ih hm with h1 | h1 <;> rw [h1] <;> cases a <;> simp [Fadd]

/-- A float sum over a list containing `-inf` is `-inf` or NaN. -/
theorem Fsum_of_ninf_mem (xs : List F) (h : F.ninf ∈ xs) :
    Fsum xs = F.ninf ∨ Fsum xs = F.nan := by
  induction xs with
  | nil => cases h
  | cons a l ih =>
      rcases List.mem_cons.mp h with rfl | hm
      · show Fadd F.ninf (Fsum l) = F.ninf ∨ Fadd F.ninf (Fsum l) = F.nan
        cases Fsum l <;> simp [Fadd]
      · show Fadd a (Fsum l) = F.ninf ∨ Fadd a (Fsum l) = F.nan
        rcases ih hm with h1 | h1 <;> rw [h1] <;> cases a <;> simp [Fadd]

/-- A float sum is `-inf` only if some summand is `-inf`. -/
theorem mem_ninf_of_Fsum_eq_ninf (xs : List F) (h : Fsum xs = F.ninf) :
    F.ninf ∈ xs := by
  induction xs with
  | nil => simp [Fsum] at h
  | cons a l ih =>
      have hs : Fadd a (Fsum l) = F.ninf := h
      cases a with
      | fin q =>
          cases hfs : Fsum l <;> rw [hfs] at hs <;> simp [Fadd] at hs
          exact List.mem_cons_of_mem _ (ih hfs)
      | pinf => cases hfs : Fsum l <;> rw [hfs] at hs <;> simp [Fadd] at hs
      | ninf => exact List.mem_cons_self _ _
      | nan => cases hfs : Fsum l <;> rw [hfs] at hs <;> simp [Fadd] at hs

/-- A sum of nonnegative rationals vanishes only if every term does. -/
theorem list_sum_nonneg_eq_zero (l : List ℚ) (hn : ∀ x ∈ l, 0 ≤ x)
    (h : l.sum = 0) : ∀ x ∈ l, x = 0 := by
  induction l with
  | nil => intro x hx; cases hx
  | cons a t ih =>
      have hta : 0 ≤ a := hn a (List.mem_cons_self _ _)
      have htt : ∀ x ∈ t, 0 ≤ x := fun x hx => hn x (List.mem_cons_of_mem _ hx)
      have hts : 0 ≤ t.sum := List.sum_nonneg htt
      have hsum : a + t.sum = 0 := by simpa using h
      have ha : a = 0 := by linarith
      have ht : t.sum = 0 := by linarith
      intro x hx
      rcases List.mem_cons.mp hx with rfl | hm
      · exact ha
      · exact ih htt ht x hm

/-- Population variance is nonnegative. -/
theorem popVar_nonneg (l : List ℚ) : 0 ≤ popVar l := by
  apply div_nonneg
  · exact List.sum_nonneg (by
      intro x hx
      rcases List.mem_map.mp hx with ⟨q, _, rfl⟩
      positivity)
  · positivity

/-- If the population variance vanishes, every element equals the mean. -/
theorem eq_popMean_of_popVar_eq_zero (l : List ℚ) (hne : l ≠ [])
    (h : popVar l = 0) : ∀ x ∈ l, x = popMean l := by
  have hlen : (l.length : ℚ) ≠ 0 := by
    have h1 : l.length ≠ 0 := by simpa [List.length_eq_zero] using hne
    exact Nat.cast_ne_zero.mpr h1
  have hnum : (l.map (fun x => (x - popMean l) ^ 2)).sum = 0 := by
    rcases div_eq_zero_iff.mp h with h1 | h1
    · exact h1
    · exact absurd h1 hlen
  intro x hx
  have := list_sum_nonneg_eq_zero _ (by
      intro y hy
      rcases List.mem_map.mp hy with ⟨q, _, rfl⟩
      positivity) hnum ((x - popMean l) ^ 2) (List.mem_map_of_mem _ hx)
  have hx0 : x - popMean l = 0 := by
    exact pow_eq_zero_iff (n := 2) (by norm_num) |>.mp this
  linarith

/-- With a nonzero ask the spread percentage is the finite rational of
the claim's formula. -/
theorem spread_percentage_fin (c : Contract) (h : c.ask ≠ 0) :
    spread_percentage c = F.fin (spreadPctQ c) := by
  simp [spread_percentage, spreadPctQ, Fdiv, Fmul, h]

/-- With a zero ask the spread percentage is a non-finite float. -/
theorem spread_percentage_of_ask_eq_zero (c : Contract) (h : c.ask = 0) :
    spread_percentage c = F.pinf ∨ spread_percentage c = F.ninf ∨
      spread_percentage c = F.nan := by
  rcases lt_trichotomy c.bid 0 with hb | hb | hb
  · left
    have h1 : 0 < c.ask - c.bid := by rw [h]; linarith
    have e1 : Fdiv (F.fin (c.ask - c.bid)) (F.fin c.ask) = F.pinf := by
      rw [h]
      simp [Fdiv, zero_sub, neg_pos, hb]
    rw [spread_percentage, e1]
    show Fmul F.pinf (F.fin 100) = F.pinf
    norm_num [Fmul]
  · right; right
    have e1 : Fdiv (F.fin (c.ask - c.bid)) (F.fin c.ask) = F.nan := by
      rw [h, hb]
      norm_num [Fdiv]
    rw [spread_percentage, e1]
    rfl
  · right; left
    have h1 : c.ask - c.bid < 0 := by rw [h]; linarith
    have e1 : Fdiv (F.fin (c.ask - c.bid)) (F.fin c.ask) = F.ninf := by
      rw [h]
      simp [Fdiv, zero_sub, neg_pos, neg_lt_zero, hb, hb.not_lt]
    rw [spread_percentage, e1]
    show Fmul F.ninf (F.fin 100) = F.ninf
    norm_num [Fmul]

/-- A `-inf` deviation never passes the z-score test. -/
theorem FzGT_ninf_left (v : F) (t : ℚ) : FzGT F.ninf v t = false := by
  cases v <;> rfl

/-- A NaN deviation never passes the z-score test. -/
theorem FzGT_nan_left (v : F) (t : ℚ) : FzGT F.nan v t = false := by
  cases v <;> rfl

/-- A NaN variance never passes the z-score test. -/
theorem FzGT_nan_right (d : F) (t : ℚ) : FzGT d F.nan t = false := by
  cases d <;> rfl

/-- On finite deviation and variance the float z-score test agrees with
the rational one, provided the deviation vanishes when the variance does
(which holds for any member of the population). -/
theorem FzGT_fin_eq_zGTQ (d v t : ℚ) (h0 : v = 0 → d = 0) :
    FzGT (F.fin d) (F.fin v) t = zGTQ d v t := by
  rcases lt_trichotomy v 0 with hv | hv | hv
  · simp [FzGT, zGTQ, hv, hv.le]
  · subst hv
    simp [FzGT, zGTQ, h0 rfl]
  · simp [FzGT, zGTQ, hv.not_lt, hv.ne', not_le.mpr hv]

/-- The float mean of embedded rationals is the embedded population mean
(nonempty list). -/
theorem Fmean_map_fin (l : List ℚ) (hne : l ≠ []) :
    Fmean (l.map F.fin) = F.fin (popMean l) := by
  have h1 : l.length ≠ 0 := by simpa [List.length_eq_zero] using hne
  have hq : (l.length : ℚ) ≠ 0 := Nat.cast_ne_zero.mpr h1
  simp only [Fmean, Fsum_map_fin, List.length_map]
  simp [Fdiv, hq, popMean]

/-- The float population variance of embedded rationals is the embedded
population variance (nonempty list). -/
theorem Fvar_map_fin (l : List ℚ) (hne : l ≠ []) :
    Fvar (l.map F.fin) = F.fin (popVar l) := by
  have e1 : Fvar (l.map F.fin) =
      Fmean ((l.map F.fin).map
        (fun x => Fmul (Fsub x (Fmean (l.map F.fin))) (Fsub x (Fmean (l.map F.fin))))) := rfl
  rw [e1, Fmean_map_fin l hne]
  have e2 : (l.map F.fin).map
      (fun x => Fmul (Fsub x (F.fin (popMean l))) (Fsub x (F.fin (popMean l)))) =
      (l.map (fun q => (q - popMean l) * (q - popMean l))).map F.fin := by
    rw [List.map_map, List.map_map]
    refine List.map_congr_left ?_
    intro q _
    rfl
  rw [e2, Fmean_map_fin _ (by simpa using hne)]
  congr 1
  simp [popVar, popMean, List.length_map, pow_two]

/-- If some element of the spread-percentage column is non-finite, no
deviation passes the z-score test: the mean is non-finite, so every
deviation is `-inf` or NaN, or else the variance is NaN. -/
theorem FzGT_dev_false_of_nonfin_mem (xs : List F) (y : F) (hmem : y ∈ xs)
    (hnf : y = F.pinf ∨ y = F.ninf ∨ y = F.nan) (x : F) (t : ℚ) :
    FzGT (Fsub x (Fmean xs)) (Fvar xs) t = false := by
  rcases hnf with rfl | rfl | rfl
  · rcases Fsum_of_pinf_mem xs hmem with hs | hs
    · have hm : Fmean xs = F.pinf := by
        simp only [Fmean, hs]
        simp [Fdiv, Nat.cast_nonneg]
      rw [hm]
      cases x with
      | fin a => exact FzGT_ninf_left _ _
      | pinf => exact FzGT_nan_left _ _
      | ninf => exact FzGT_ninf_left _ _
      | nan => exact FzGT_nan_left _ _
    · have hm : Fmean xs = F.nan := by
        simp only [Fmean, hs]
        rfl
      rw [hm]
      cases x <;> exact FzGT_nan_left _ _
  · rcases Fsum_of_ninf_mem xs hmem with hs | hs
    · have hm : Fmean xs = F.ninf := by
        simp only [Fmean, hs]
        simp [Fdiv, Nat.cast_nonneg]
      have hdev : F.nan ∈ xs.map (fun z => Fmul (Fsub z (Fmean xs)) (Fsub z (Fmean xs))) := by
        refine List.mem_map.mpr ⟨F.ninf, hmem, ?_⟩
        rw [hm]
        rfl
      have hv : Fvar xs = F.nan := by
        have e1 : Fvar xs =
            Fdiv (Fsum (xs.map (fun z => Fmul (Fsub z (Fmean xs)) (Fsub z (Fmean xs)))))
              (F.fin (xs.map (fun z => Fmul (Fsub z (Fmean xs)) (Fsub z (Fmean xs)))).length) := rfl
        rw [e1, Fsum_of_nan_mem _ hdev]
        rfl
      rw [hv]
      exact FzGT_nan_right _ _
    · have hm : Fmean xs = F.nan := by
        simp only [Fmean, hs]
        rfl
      rw [hm]
      cases x <;> exact FzGT_nan_left _ _
  · have hm : Fmean xs = F.nan := by
      simp only [Fmean, Fsum_of_nan_mem _ hmem]
      rfl
    rw [hm]
    cases x <;> exact FzGT_nan_left _ _

/-- When some contract has `ask = 0`, its non-finite spread percentage
poisons the whole z-score column and the detector returns nothing. -/
theorem detect_empty_of_zero_ask (options_data : List Contract) (t tv : ℚ)
    (hex : ∃ c ∈ options_data, c.ask = 0) :
    detect_unusual_spreads options_data t tv = [] := by
  obtain ⟨c₀, hc₀, hask⟩ := hex
  simp only [detect_unusual_spreads]
  rw [List.filter_eq_nil_iff]
  intro c hc
  have hz := FzGT_dev_false_of_nonfin_mem (options_data.map spread_percentage)
    (spread_percentage c₀) (List.mem_map_of_mem _ hc₀)
    (spread_percentage_of_ask_eq_zero c₀ hask) (spread_percentage c) t
  simp [hz]

/-- When every contract has a positive ask, the code's z-score filter
coincides with the claim's defined-population z-score filter. -/
theorem detect_eq_spec_of_pos_ask (options_data : List Contract) (t tv : ℚ)
    (h : ∀ c ∈ options_data, 0 < c.ask) :
    detect_unusual_spreads options_data t tv =
      spec_unusual_spreads options_data t tv := by
  rcases eq_or_ne options_data [] with rfl | hne
  · rfl
  · have hPne : options_data.map spreadPctQ ≠ [] := by simpa using hne
    have hmap : options_data.map spread_percentage =
        (options_data.map spreadPctQ).map F.fin := by
      rw [List.map_map]
      exact List.map_congr_left fun c hc => spread_percentage_fin c (h c hc).ne'
    have hmean : Fmean (options_data.map spread_percentage) =
        F.fin (popMean (options_data.map spreadPctQ)) := by
      rw [hmap]
      exact Fmean_map_fin _ hPne
    have hvar : Fvar (options_data.map spread_percentage) =
        F.fin (popVar (options_data.map spreadPctQ)) := by
      rw [hmap]
      exact Fvar_map_fin _ hPne
    have hfil : options_data.filter (fun c => decide (0 < c.ask)) = options_data :=
      List.filter_eq_self.mpr (fun c hc => by simpa using h c hc)
    simp only [detect_unusual_spreads, spec_unusual_spreads, hfil, hmean, hvar]
    apply List.filter_congr
    intro c hc
    have hd0 : popVar (options_data.map spreadPctQ) = 0 →
        spreadPctQ c - popMean (options_data.map spreadPctQ) = 0 := by
      intro hv0
      have := eq_popMean_of_popVar_eq_zero _ hPne hv0 (spreadPctQ c)
        (List.mem_map_of_mem _ hc)
      linarith
    rw [spread_percentage_fin c (h c hc).ne']
    rw [show Fsub (F.fin (spreadPctQ c))
          (F.fin (popMean (options_data.map spreadPctQ))) =
        F.fin (spreadPctQ c - popMean (options_data.map spreadPctQ)) from rfl]
    rw [FzGT_fin_eq_zGTQ _ _ _ hd0]
    simp [h c hc]

/-- Claim C2 (amended): when every contract has `ask > 0`, the z-score
population is exactly the defined-`spreadPct` population and the code's
filter coincides with the claim's; when any contract has `ask = 0`, its
non-finite spread percentage NaN-poisons every z-score and the detector
returns the empty set (rather than flagging over the defined
subpopulation); in every case the returned subset never contains a
contract with `ask = 0`. -/
theorem detect_unusual_spreads_amended (options_data : List Contract) (t tv : ℚ) :
    ((∀ c ∈ options_data, 0 < c.ask) →
      detect_unusual_spreads options_data t tv =
        spec_unusual_spreads options_data t tv) ∧
    ((∃ c ∈ options_data, c.ask = 0) →
      detect_unusual_spreads options_data t tv = []) ∧
    (∀ c ∈ detect_unusual_spreads options_data t tv, c.ask ≠ 0) := by
  refine ⟨detect_eq_spec_of_pos_ask options_data t tv,
    detect_empty_of_zero_ask options_data t tv, ?_⟩
  intro c hc hask
  have hform : detect_unusual_spreads options_data t tv =
      options_data.filter (fun x =>
        FzGT (Fsub (spread_percentage x) (Fmean (options_data.map spread_percentage)))
          (Fvar (options_data.map spread_percentage)) t && decide (tv < x.volume)) := rfl
  have hcd : c ∈ options_data := by
    rw [hform] at hc
    exact List.mem_of_mem_filter hc
  have hempty := detect_empty_of_zero_ask options_data t tv ⟨c, hcd, hask⟩
  rw [hempty] at hc
  cases hc

/-- Claim C2 (witness): on the all-positive-ask eleven-contract chain
the code and the claim's computation agree, and on the chain with the
`ask = 0` contract the code returns the empty set. -/
theorem detect_unusual_spreads_amended_witness :
    detect_unusual_spreads
        (List.replicate 10 zeroSpreadContract ++ [outlierSpreadContract]) 3 1 =
      spec_unusual_spreads
        (List.replicate 10 zeroSpreadContract ++ [outlierSpreadContract]) 3 1 ∧
    detect_unusual_spreads spoiledChain 3 1 = [] := by
  constructor
  · refine (detect_unusual_spreads_amended _ 3 1).1 ?_
    intro c hc
    simp only [List.mem_append, List.mem_replicate, List.mem_singleton] at hc
    rcases hc with ⟨-, rfl⟩ | rfl <;> norm_num [zeroSpreadContract, outlierSpreadContract]
  · exact (detect_unusual_spreads_amended spoiledChain 3 1).2.1
      ⟨zeroAskContract, by simp [spoiledChain], rfl⟩

/-- The returns tail preserves length. -/
theorem pct_change_tail_length (p : ℚ) (l : List ℚ) :
    (pct_change_tail p l).length = l.length := by
  induction l generalizing p with
  | nil => rfl
  | cons c rest ih => simp [pct_change_tail, ih]

/-- `pct_change` preserves length. -/
theorem pct_change_length (closes : List ℚ) :
    (pct_change closes).length = closes.length := by
  cases closes with
  | nil => rfl
  | cons c cs => simp [pct_change, pct_change_tail_length]

/-- The rolling-volatility series has the length of its input. -/
theorem rollingVolSq_length (rets : List (Option ℚ)) :
    (rollingVolSq rets).length = rets.length := by
  simp [rollingVolSq]

/-- Percentile ranking preserves length. -/
theorem ranksPct_length (xs : List (Option ℚ)) :
    (ranksPct xs).length = xs.length := by
  simp [ranksPct]

/-- Ranking an all-NaN series keeps it all-NaN. -/
theorem ranksPct_replicate_none (n : ℕ) :
    ranksPct (List.replicate n none) = List.replicate n none := by
  simp [ranksPct]

/-- The last entry of a nonempty all-NaN series. -/
theorem getLast?_replicate_none (n : ℕ) (h : 0 < n) :
    (List.replicate n (none : Option ℚ)).getLast? = some none := by
  induction n with
  | zero => cases h
  | succ k ih =>
      cases Nat.eq_zero_or_pos k with
      | inl hk => subst hk; rfl
      | inr hk =>
          rw [List.replicate_succ, List.getLast?_cons, ih hk]
          cases hrep : List.replicate k (none : Option ℚ) with
          | nil =>
              rw [hrep] at ih
              exact absurd (ih hk) (by simp)
          | cons a l => simp

/-- With 20 bars or fewer every rolling-volatility entry is NaN: the
20-entry window either does not exist or contains the leading NaN
return. -/
theorem rollingVolSq_all_none (closes : List ℚ) (h1 : closes ≠ [])
    (h2 : closes.length ≤ 20) :
    rollingVolSq (pct_change closes) = List.replicate closes.length none := by
  obtain ⟨c, cs, rfl⟩ : ∃ c cs, closes = c :: cs := by
    cases closes with
    | nil => exact absurd rfl h1
    | cons c cs => exact ⟨c, cs, rfl⟩
  rw [List.eq_replicate_iff]
  refine ⟨by rw [rollingVolSq_length, pct_change_length], ?_⟩
  intro b hb
  obtain ⟨i, hi, hfi⟩ := List.mem_map.mp hb
  rw [List.mem_range, pct_change_length] at hi
  have hle : i + 1 - 20 = 0 := by
    simp only [List.length_cons] at hi h2
    omega
  rw [← hfi]
  simp only [hle, List.drop_zero, pct_change, List.take_succ_cons, List.all_cons,
    Option.isSome_none, Bool.false_and, Bool.and_false, Bool.false_eq_true, if_false]

/-- Claim C3 (amended): with at least one but fewer than 21 bars, the
latest rolling volatility and its percentile rank are NaN, both regime
comparisons are false, and `calculate_volatility_based_threshold`
returns the MEDIUM threshold set with a NaN price-move threshold — it
does not fail and the run is not aborted.  (With zero bars the
`iloc[-1]` lookup raises an IndexError, modelled by `none`.) -/
theorem calc_vol_threshold_short_history (closes : List ℚ)
    (h1 : closes ≠ []) (h2 : closes.length < 21) :
    calculate_volatility_based_threshold closes =
      some { price_move_threshold := none, volume_threshold := 3.0,
             iv_threshold := 2.0 } := by
  have hn : 0 < closes.length := List.length_pos.mpr h1
  have hrep := rollingVolSq_all_none closes h1 (by omega)
  simp only [calculate_volatility_based_threshold, hrep, ranksPct_replicate_none,
    getLast?_replicate_none _ hn]
  simp [oGT, oLT]

/-- Claim C3 (counterexample): on five identical bars the function
returns the MEDIUM threshold set (with NaN price-move threshold)
instead of aborting with an error. -/
theorem calc_vol_threshold_counterexample :
    calculate_volatility_based_threshold [1, 1, 1, 1, 1] =
      some { price_move_threshold := none, volume_threshold := 3.0,
             iv_threshold := 2.0 } := by
  norm_num [calculate_volatility_based_threshold, pct_change, pct_change_tail,
    rollingVolSq, ranksPct, List.range_succ, oGT, oLT]

/-- Claim C3 (witness): the amended statement applied to the concrete
five-bar history. -/
theorem calc_vol_threshold_short_history_witness :
    calculate_volatility_based_threshold [2, 2, 2, 2, 2] =
      some { price_move_threshold := none, volume_threshold := 3.0,
             iv_threshold := 2.0 } :=
  calc_vol_threshold_short_history [2, 2, 2, 2, 2] (by simp) (by simp)

/-- Claim C5: on any nonempty bar history the returned thresholds are
exactly the claim's table applied to the percentile rank of the latest
rolling volatility and its value, and the table's boundaries are
strict: rank exactly 0.8 and rank exactly 0.2 both yield the MEDIUM
set. -/
theorem calc_vol_threshold_table (closes : List ℚ) (h : closes ≠ []) :
    (calculate_volatility_based_threshold closes =
      some (volThresholdTable (volPercentile closes) (latestVolSq closes))) ∧
    (∀ v, volThresholdTable (some 0.8) v =
      { price_move_threshold := v.map (fun s => (1.0, s)),
        volume_threshold := 3.0, iv_threshold := 2.0 }) ∧
    (∀ v, volThresholdTable (some 0.2) v =
      { price_move_threshold := v.map (fun s => (1.0, s)),
        volume_threshold := 3.0, iv_threshold := 2.0 }) := by
  refine ⟨?_, ?_, ?_⟩
  · have hrne : rollingVolSq (pct_change closes) ≠ [] := by
      intro he
      apply h
      have := rollingVolSq_length (pct_change closes)
      rw [he, pct_change_length] at this
      simpa [List.length_eq_zero] using this.symm
    have hkne : ranksPct (rollingVolSq (pct_change closes)) ≠ [] := by
      intro he
      apply hrne
      have := ranksPct_length (rollingVolSq (pct_change closes))
      rw [he] at this
      simpa [List.length_eq_zero] using this.symm
    obtain ⟨x, hx⟩ := Option.isSome_iff_exists.mp (List.getLast?_isSome.mpr hrne)
    obtain ⟨y, hy⟩ := Option.isSome_iff_exists.mp (List.getLast?_isSome.mpr hkne)
    simp only [calculate_volatility_based_threshold, hx, hy, volPercentile,
      latestVolSq, Option.join, volThresholdTable, Option.some_bind, id_eq]
  · intro v
    norm_num [volThresholdTable, oGT, oLT]
  · intro v
    norm_num [volThresholdTable, oGT, oLT]

/-- Claim C5 (witness): the table equation applied to five concrete
bars, and the strict boundary at rank exactly 0.8. -/
theorem calc_vol_threshold_table_witness :
    (calculate_volatility_based_threshold [1, 1, 1, 1, 1] =
      some (volThresholdTable (volPercentile [1, 1, 1, 1, 1])
        (latestVolSq [1, 1, 1, 1, 1]))) ∧
    volThresholdTable (some 0.8) (some 4) =
      { price_move_threshold := some (1.0, 4), volume_threshold := 3.0,
        iv_threshold := 2.0 } := by
  refine ⟨(calc_vol_threshold_table [1, 1, 1, 1, 1] (by simp)).1, ?_⟩
  have h := (calc_vol_threshold_table [(1 : ℚ)] (by simp)).2.1 (some 4)
  simpa using h

/-- Claim C9: once the threshold cache is populated (`some ts`), both
stateful operations leave the state unchanged and never recompute the
thresholds, whatever history and chain data are supplied. -/
theorem thresholds_cached_once (st : DetectorState) (historical_closes : List ℚ)
    (chain options_data : List Contract) (ts : ThresholdSet)
    (h : st.thresholds = some ts) :
    track_options_flow_s st historical_closes chain options_data =
      some (st, track_options_flow options_data) ∧
    detect_unusual_spreads_s st historical_closes chain options_data =
      some (st, detect_unusual_spreads options_data ts.spread ts.volume) := by
  constructor <;> simp [track_options_flow_s, detect_unusual_spreads_s, h]

/-- Claim C9 (witness): a populated cache survives both calls unchanged
on concrete data. -/
theorem thresholds_cached_once_witness :
    track_options_flow_s ⟨some ⟨none, 6, 2, 4, 2⟩⟩ [] [] [insideSpreadCall] =
      some (⟨some ⟨none, 6, 2, 4, 2⟩⟩, track_options_flow [insideSpreadCall]) ∧
    detect_unusual_spreads_s ⟨some ⟨none, 6, 2, 4, 2⟩⟩ [] [] [insideSpreadCall] =
      some (⟨some ⟨none, 6, 2, 4, 2⟩⟩, detect_unusual_spreads [insideSpreadCall] 4 6) :=
  thresholds_cached_once ⟨some ⟨none, 6, 2, 4, 2⟩⟩ [] [] [insideSpreadCall]
    ⟨none, 6, 2, 4, 2⟩ rfl

/-- Claim C4 (amended): the skew mapping contains an entry for every
pivot expiration — an expiration with no usable cells near spot yields
a NaN entry rather than being omitted — and each entry's value is the
mean implied volatility over the defined cells at the two strikes
closest to spot. -/
theorem analyze_volatility_surface_amended (options_data : List Contract) (spot : ℚ) :
    ((analyze_volatility_surface options_data spot).map Prod.fst =
      pivotColumns options_data) ∧
    (∀ e v, (e, v) ∈ analyze_volatility_surface options_data spot →
      v = meanO (((closestStrikes options_data spot).map
        (fun s => pivotCell options_data s e)).filterMap id)) := by
  constructor
  · simp only [analyze_volatility_surface, List.map_map]
    refine Eq.trans (List.map_congr_left ?_) (List.map_id _)
    intro e _
    rfl
  · intro e v hmem
    obtain ⟨e', _, heq⟩ := List.mem_map.mp hmem
    obtain ⟨h1, h2⟩ := Prod.mk.injEq .. |>.mp heq
    subst h1
    exact h2.symm

/-- Claim C4 (counterexample): on `surfaceChain` with spot 100 the code
returns an entry for expiration 2 with value NaN — the expiration with
no usable strikes near spot is not omitted — while the claim's mapping
omits it. -/
theorem analyze_volatility_surface_counterexample :
    analyze_volatility_surface surfaceChain 100 = [(1, some (3/10)), (2, none)] ∧
      spec_volatility_skew surfaceChain 100 = [(1, some (3/10))] := by
  constructor
  · norm_num [analyze_volatility_surface, surfaceChain, pivotColumns, expAxis,
      strikeAxis, insertionSort, insertSorted, closestStrikes, pivotCell, meanO,
      List.filter_cons, List.dedup_cons_of_not_mem, List.dedup_nil,
      List.filterMap_cons, id_eq]
    simp
  · norm_num [spec_volatility_skew, surfaceChain, pivotColumns, expAxis,
      strikeAxis, insertionSort, insertSorted, closestStrikes, pivotCell, meanO,
      List.filter_cons, List.dedup_cons_of_not_mem, List.dedup_nil,
      List.filterMap_cons, id_eq]
    simp

/-- Claim C4 (witness): the amended statement applied at the concrete
chain: expiration 2 is present, and its value is the (empty, hence NaN)
mean over the defined cells at the two closest strikes. -/
theorem analyze_volatility_surface_amended_witness :
    ((analyze_volatility_surface surfaceChain 100).map Prod.fst =
      pivotColumns surfaceChain) ∧
    (none : Option ℚ) = meanO (((closestStrikes surfaceChain 100).map
      (fun s => pivotCell surfaceChain s 2)).filterMap id) := by
  refine ⟨(analyze_volatility_surface_amended surfaceChain 100).1, ?_⟩
  refine (analyze_volatility_surface_amended surfaceChain 100).2 2 none ?_
  norm_num [analyze_volatility_surface, surfaceChain, pivotColumns, expAxis,
    strikeAxis, insertionSort, insertSorted, closestStrikes, pivotCell, meanO,
    List.filter_cons, List.dedup_cons_of_not_mem, List.dedup_nil]
